import Mathlib

/-!
Shallow embedding of the Search Session Coordinator from
`src/lib/hooks/useHomePage.ts` (the `useHomePage` hook of KVvideo).

The hook owns three pieces of session state (`query`, `hasSearched`,
`currentSortBy`), reads external inputs (the settings-store snapshot, the
executor telemetry `loading`/`results`, the URL query parameter, the cached
search record), and issues imperative commands to its collaborators
(`performSearch`, `resetSearch`, `loadCachedResults`, `applySorting`, and the
router-clearing `router.replace('/')`).

Each handler of the hook is embedded as a pure function from its inputs and
the pre-state to the post-state together with the ordered list of commands it
issues.  React's `setX` calls inside one handler do not change the values the
same handler body already captured, which the embedding reflects by reading
captured fields from the pre-state.
-/

namespace KVvideo

/-- A result item produced by a search source (opaque to the coordinator). -/
structure SearchResult where
  resId : String
deriving DecidableEq

/-- A toggleable search source as held in the settings-store snapshot. -/
structure Source where
  srcId : String
  enabled : Bool
deriving DecidableEq

/-- Snapshot returned by `settingsStore.getSettings()`. -/
structure Settings where
  sortBy : String
  sources : List Source
deriving DecidableEq

/-- A cached search record as returned by `loadFromCache()`. -/
structure CachedRecord where
  query : String
  results : List SearchResult
  availableSources : List String
deriving DecidableEq

/-- Session state owned by the coordinator: the `useState` triple
`query` / `hasSearched` / `currentSortBy` of `useHomePage`. -/
structure SessionState where
  query : String
  hasSearched : Bool
  currentSortBy : String
deriving DecidableEq

/-- The `useState` initial values: `''`, `false`, `'default'`. -/
def initialSession : SessionState :=
  { query := "", hasSearched := false, currentSortBy := "default" }

/-- Imperative commands the coordinator issues to its collaborators. -/
inductive Command where
  | performSearch (q : String) (sources : List Source) (sortBy : String)
  | resetSearch
  | loadCachedResults (results : List SearchResult) (availableSources : List String)
  | applySorting (sortBy : String)
  | routerClear
deriving DecidableEq

/-- JavaScript `String.prototype.trim`: drop leading and trailing whitespace
characters. -/
def jsTrim (s : String) : String :=
  ⟨((s.data.dropWhile Char.isWhitespace).reverse.dropWhile Char.isWhitespace).reverse⟩

/-- `handleSearch` (lines 94-110 of `useHomePage.ts`): ignore a query that is
blank after `trim()`; otherwise set `query` and `hasSearched`, read the
enabled sources from the settings snapshot, and invoke `performSearch` only
when that list is non-empty. -/
def handleSearch (settings : Settings) (st : SessionState) (searchQuery : String) :
    SessionState × List Command :=
  if jsTrim searchQuery = "" then (st, [])
  else
    let st1 := { st with query := searchQuery, hasSearched := true }
    let enabledSources := settings.sources.filter (fun s => s.enabled)
    if enabledSources.length = 0 then (st1, [])
    else (st1, [Command.performSearch searchQuery enabledSources st1.currentSortBy])

/-- `updateSettings` (lines 44-65): sync `currentSortBy` with the snapshot,
then retry the search when the captured `query` is non-empty, the freshly
filtered enabled-source list is non-empty, the captured `hasSearched` is
false or the captured result count is zero, and `loading` is false. -/
def updateSettings (settings : Settings) (loading : Bool)
    (results : List SearchResult) (st : SessionState) :
    SessionState × List Command :=
  let sortSynced :=
    if settings.sortBy ≠ st.currentSortBy
    then { st with currentSortBy := settings.sortBy } else st
  let enabledSources := settings.sources.filter (fun s => s.enabled)
  let hasSources := enabledSources.length > 0
  if st.query ≠ "" ∧ hasSources ∧ (st.hasSearched = false ∨ results.length = 0) ∧
      loading = false then
    ({ sortSynced with hasSearched := true },
     [Command.performSearch st.query enabledSources settings.sortBy])
  else (sortSynced, [])

/-- The re-sort effect (lines 36-40): when `hasSearched` is set and results
exist, apply in-place sorting with the current sort key. -/
def resortEffect (st : SessionState) (results : List SearchResult) : List Command :=
  if st.hasSearched = true ∧ results.length > 0 then
    [Command.applySorting st.currentSortBy]
  else []

/-- `handleReset` (lines 112-117): clear `hasSearched` and `query`, issue the
executor reset, and clear the shareable location.  `currentSortBy` is not
touched. -/
def handleReset (st : SessionState) : SessionState × List Command :=
  ({ st with hasSearched := false, query := "" },
   [Command.resetSearch, Command.routerClear])

/-- Outcome of one run of the mount effect: the value of the
`hasLoadedCache` ref afterwards, the session state, the commands issued, and
the list of queries with which the search action `handleSearch` was invoked. -/
structure MountOutcome where
  hasLoadedCache : Bool
  state : SessionState
  commands : List Command
  searchActionCalls : List String
deriving DecidableEq

/-- The mount-restore effect (lines 76-92): guarded by the `hasLoadedCache`
ref; reads `q` from the URL (absent or empty string means no query) and the
cached record; on a matching non-empty cache record hydrates via
`loadCachedResults`, otherwise invokes `handleSearch` with the URL query. -/
def mountEffect (hasLoadedCache : Bool) (urlQuery : Option String)
    (cached : Option CachedRecord) (settings : Settings) (st : SessionState) :
    MountOutcome :=
  if hasLoadedCache then ⟨true, st, [], []⟩
  else
    match urlQuery with
    | none => ⟨true, st, [], []⟩
    | some q =>
      if q = "" then ⟨true, st, [], []⟩
      else
        let stq := { st with query := q }
        match cached with
        | some c =>
          if c.query = q ∧ c.results.length > 0 then
            ⟨true, { stq with hasSearched := true },
             [Command.loadCachedResults c.results c.availableSources], []⟩
          else
            let r := handleSearch settings stq q
            ⟨true, r.1, r.2, [q]⟩
        | none =>
          let r := handleSearch settings stq q
          ⟨true, r.1, r.2, [q]⟩

/-- Claim C1: on a settings-store notification (or the eager run on mount),
if the session query is non-empty, the freshly read enabled-source list is
non-empty, `hasSearched` is false or the result count is 0, and `loading` is
false, then the handler invokes `performSearch` with the current query, the
freshly read enabled sources and the freshly read sort preference, and sets
`hasSearched` to true. -/
theorem updateSettings_retries_on_late_sources
    (settings : Settings) (results : List SearchResult) (st : SessionState)
    (hq : st.query ≠ "")
    (hs : settings.sources.filter (fun s => s.enabled) ≠ [])
    (hr : st.hasSearched = false ∨ results = []) :
    (updateSettings settings false results st).1.hasSearched = true ∧
    (updateSettings settings false results st).2 =
      [Command.performSearch st.query
        (settings.sources.filter (fun s => s.enabled)) settings.sortBy] := by
  have hlen : (settings.sources.filter (fun s => s.enabled)).length > 0 :=
    List.length_pos.mpr hs
  have hr' : st.hasSearched = false ∨ results.length = 0 := by
    rcases hr with h | h
    · exact Or.inl h
    · exact Or.inr (by simp [h])
  constructor
  · simp only [updateSettings]
    rw [if_pos ⟨hq, hlen, hr', by trivial⟩]
  · simp only [updateSettings]
    rw [if_pos ⟨hq, hlen, hr', by trivial⟩]

theorem updateSettings_retries_on_late_sources_witness :
    (updateSettings ⟨"date", [⟨"s1", true⟩]⟩ false []
        ⟨"cats", false, "default"⟩).1.hasSearched = true ∧
    (updateSettings ⟨"date", [⟨"s1", true⟩]⟩ false []
        ⟨"cats", false, "default"⟩).2 =
      [Command.performSearch "cats" [⟨"s1", true⟩] "date"] :=
  updateSettings_retries_on_late_sources ⟨"date", [⟨"s1", true⟩]⟩ []
    ⟨"cats", false, "default"⟩ (by decide) (by decide) (Or.inl rfl)

/-- Claim C2: the settings-change handler issues no command at all when
`loading` is true, or when the state is settled (`hasSearched` true with at
least one result); in particular it performs no `performSearch` call. -/
theorem updateSettings_no_search_when_loading_or_settled
    (settings : Settings) (loading : Bool) (results : List SearchResult)
    (st : SessionState)
    (h : loading = true ∨ (st.hasSearched = true ∧ results ≠ [])) :
    (updateSettings settings loading results st).2 = [] := by
  have hneg : ¬(st.query ≠ "" ∧
      (settings.sources.filter (fun s => s.enabled)).length > 0 ∧
      (st.hasSearched = false ∨ results.length = 0) ∧ loading = false) := by
    rcases h with h | ⟨h1, h2⟩
    · rintro ⟨-, -, -, hl⟩
      rw [h] at hl
      cases hl
    · rintro ⟨-, -, hd, -⟩
      rcases hd with hd | hd
      · rw [h1] at hd
        cases hd
      · exact h2 (List.length_eq_zero.mp hd)
  simp only [updateSettings]
  rw [if_neg hneg]

theorem updateSettings_no_search_when_loading_or_settled_witness :
    (updateSettings ⟨"default", [⟨"s1", true⟩]⟩ true [] ⟨"cats", false, "default"⟩).2 = [] :=
  updateSettings_no_search_when_loading_or_settled ⟨"default", [⟨"s1", true⟩]⟩ true []
    ⟨"cats", false, "default"⟩ (Or.inl rfl)

/-- Claim C5: a blank or whitespace-only input to `handleSearch` leaves the
session state unchanged and issues no command. -/
theorem handleSearch_blank_is_noop
    (settings : Settings) (st : SessionState) (searchQuery : String)
    (hb : jsTrim searchQuery = "") :
    handleSearch settings st searchQuery = (st, []) := by
  simp [handleSearch, hb]

theorem handleSearch_blank_is_noop_witness :
    handleSearch ⟨"default", [⟨"s1", true⟩]⟩ ⟨"cats", true, "date"⟩ "  " =
      (⟨"cats", true, "date"⟩, []) :=
  handleSearch_blank_is_noop ⟨"default", [⟨"s1", true⟩]⟩ ⟨"cats", true, "date"⟩ "  "
    (by decide)

/-- Claim C6: for a non-blank input `q`, `handleSearch` sets `query = q` and
`hasSearched = true`; it issues no command when the enabled-source list from
the settings snapshot is empty, and otherwise issues exactly
`performSearch (q, enabledSources, sortPreference)`. -/
theorem handleSearch_nonblank_sets_state
    (settings : Settings) (st : SessionState) (q : String)
    (hb : jsTrim q ≠ "") :
    (handleSearch settings st q).1 = { st with query := q, hasSearched := true } ∧
    (handleSearch settings st q).2 =
      (if settings.sources.filter (fun s => s.enabled) = [] then []
       else [Command.performSearch q (settings.sources.filter (fun s => s.enabled))
         st.currentSortBy]) := by
  constructor
  · simp only [handleSearch]
    rw [if_neg hb]
    split <;> rfl
  · simp only [handleSearch, List.length_eq_zero]
    rw [if_neg hb]
    split <;> simp_all

theorem handleSearch_nonblank_sets_state_witness :
    (handleSearch ⟨"default", [⟨"s1", true⟩]⟩ initialSession "cats").1 =
      { initialSession with query := "cats", hasSearched := true } ∧
    (handleSearch ⟨"default", [⟨"s1", true⟩]⟩ initialSession "cats").2 =
      (if (⟨"default", [⟨"s1", true⟩]⟩ : Settings).sources.filter (fun s => s.enabled) = []
       then []
       else [Command.performSearch "cats"
         ((⟨"default", [⟨"s1", true⟩]⟩ : Settings).sources.filter (fun s => s.enabled))
         initialSession.currentSortBy]) :=
  handleSearch_nonblank_sets_state ⟨"default", [⟨"s1", true⟩]⟩ initialSession "cats"
    (by decide)

/-- Claim C7: when the sort preference changes while `hasSearched` is true and
at least one result exists, the re-sort effect issues exactly one
`applySorting` command with the current (new) sort key and never a
`performSearch`. -/
theorem resortEffect_single_applySorting
    (st : SessionState) (results : List SearchResult)
    (hs : st.hasSearched = true) (hr : results ≠ []) :
    resortEffect st results = [Command.applySorting st.currentSortBy] ∧
    ∀ q ss sb, Command.performSearch q ss sb ∉ resortEffect st results := by
  have h1 : resortEffect st results = [Command.applySorting st.currentSortBy] := by
    simp [resortEffect, hs, List.length_pos.mpr hr]
  exact ⟨h1, fun q ss sb => by simp [h1]⟩

theorem resortEffect_single_applySorting_witness :
    resortEffect ⟨"cats", true, "date"⟩ [⟨"r1"⟩] =
      [Command.applySorting "date"] ∧
    ∀ q ss sb, Command.performSearch q ss sb ∉ resortEffect ⟨"cats", true, "date"⟩ [⟨"r1"⟩] :=
  resortEffect_single_applySorting ⟨"cats", true, "date"⟩ [⟨"r1"⟩] rfl (by decide)

/-- Claim C8: `handleReset` sets `query` to the empty string and `hasSearched`
to false, and issues exactly the executor reset followed by the
location-clearing command, from every prior state. -/
theorem handleReset_resets_session (st : SessionState) :
    (handleReset st).1.query = "" ∧ (handleReset st).1.hasSearched = false ∧
    (handleReset st).2 = [Command.resetSearch, Command.routerClear] :=
  ⟨rfl, rfl, rfl⟩

/-- Claim C9 counterexample: after `handleReset` the sort preference is not
restored to its initial value — from prior state
`{query := "x", hasSearched := true, currentSortBy := "date"}` the post-reset
`currentSortBy` differs from `initialSession.currentSortBy`. -/
theorem handleReset_sort_not_initial_counterexample :
    (handleReset ⟨"x", true, "date"⟩).1.currentSortBy ≠ initialSession.currentSortBy := by
  decide

/-- Claim C9 (amended): `handleReset` resets `query` and `hasSearched` to
their initial values but leaves `currentSortBy` exactly as it was. -/
theorem handleReset_amended_sort_preserved (st : SessionState) :
    (handleReset st).1 =
      { query := "", hasSearched := false, currentSortBy := st.currentSortBy } :=
  rfl

/-- Claim C3: on first mount with a non-empty URL query and a cached record
of the same query with at least one result, the effect sets `hasSearched`,
issues exactly the `loadCachedResults` hydration command, and never invokes
the search action. -/
theorem mountEffect_cache_hit_restores_without_search
    (q : String) (c : CachedRecord) (settings : Settings) (st : SessionState)
    (hq : q ≠ "") (hcq : c.query = q) (hcr : c.results ≠ []) :
    (mountEffect false (some q) (some c) settings st).state.hasSearched = true ∧
    (mountEffect false (some q) (some c) settings st).commands =
      [Command.loadCachedResults c.results c.availableSources] ∧
    (mountEffect false (some q) (some c) settings st).searchActionCalls = [] := by
  have hlen : c.results.length > 0 := List.length_pos.mpr hcr
  simp [mountEffect, hq, hcq, hlen]

theorem mountEffect_cache_hit_restores_without_search_witness :
    (mountEffect false (some "dogs") (some ⟨"dogs", [⟨"r1"⟩], ["s1"]⟩)
        ⟨"default", []⟩ initialSession).state.hasSearched = true ∧
    (mountEffect false (some "dogs") (some ⟨"dogs", [⟨"r1"⟩], ["s1"]⟩)
        ⟨"default", []⟩ initialSession).commands =
      [Command.loadCachedResults [⟨"r1"⟩] ["s1"]] ∧
    (mountEffect false (some "dogs") (some ⟨"dogs", [⟨"r1"⟩], ["s1"]⟩)
        ⟨"default", []⟩ initialSession).searchActionCalls = [] :=
  mountEffect_cache_hit_restores_without_search "dogs" ⟨"dogs", [⟨"r1"⟩], ["s1"]⟩
    ⟨"default", []⟩ initialSession (by decide) rfl (by decide)

/-- Claim C4: on mount with a non-empty URL query and a cache miss (no
record, mismatched query, or empty cached results), the effect invokes the
search action with that query exactly once; a re-run of the guarded effect
invokes it no further time. -/
theorem mountEffect_cache_miss_invokes_search_once
    (q : String) (cached : Option CachedRecord) (settings : Settings) (st : SessionState)
    (hq : q ≠ "")
    (hmiss : cached = none ∨ ∃ c, cached = some c ∧ (c.query ≠ q ∨ c.results = [])) :
    (mountEffect false (some q) cached settings st).searchActionCalls = [q] ∧
    (mountEffect (mountEffect false (some q) cached settings st).hasLoadedCache
        (some q) cached settings
        (mountEffect false (some q) cached settings st).state).searchActionCalls = [] := by
  rcases hmiss with rfl | ⟨c, rfl, hc⟩
  · simp [mountEffect, hq]
  · have hcond : ¬(c.query = q ∧ c.results.length > 0) := by
      rcases hc with h | h
      · exact fun hh => h hh.1
      · intro hh
        rw [h] at hh
        exact absurd hh.2 (by simp)
    simp [mountEffect, hq, hcond]

theorem mountEffect_cache_miss_invokes_search_once_witness :
    (mountEffect false (some "cats") none ⟨"default", []⟩ initialSession).searchActionCalls =
      ["cats"] ∧
    (mountEffect (mountEffect false (some "cats") none ⟨"default", []⟩
          initialSession).hasLoadedCache
        (some "cats") none ⟨"default", []⟩
        (mountEffect false (some "cats") none ⟨"default", []⟩
          initialSession).state).searchActionCalls = [] :=
  mountEffect_cache_miss_invokes_search_once "cats" none ⟨"default", []⟩ initialSession
    (by decide) (Or.inl rfl)

/-- Claim C10 counterexample: with the URL query `"   "` (whitespace-only)
and a cached record whose query is the same whitespace string and whose
result list is non-empty, the mount effect sets `hasSearched` to true and
issues a command, contradicting the claim that `hasSearched` remains false
and no command is issued for every whitespace-only URL query. -/
theorem mountEffect_whitespace_query_counterexample :
    (mountEffect false (some "   ") (some ⟨"   ", [⟨"r1"⟩], []⟩)
        ⟨"default", []⟩ initialSession).state.hasSearched = true ∧
    (mountEffect false (some "   ") (some ⟨"   ", [⟨"r1"⟩], []⟩)
        ⟨"default", []⟩ initialSession).commands ≠ [] := by
  decide

/-- Claim C10 (amended): on mount with a present but whitespace-only URL
query, provided the cache does not hold a record with that exact query and a
non-empty result list, the effect sets `query` to the whitespace string,
leaves `hasSearched` false, issues no command, and the invoked search action
no-ops on the blank query. -/
theorem mountEffect_whitespace_query_amended
    (q : String) (cached : Option CachedRecord) (settings : Settings)
    (hq : q ≠ "") (hb : jsTrim q = "")
    (hmiss : cached = none ∨ ∃ c, cached = some c ∧ (c.query ≠ q ∨ c.results = [])) :
    (mountEffect false (some q) cached settings initialSession).state =
      { initialSession with query := q } ∧
    (mountEffect false (some q) cached settings initialSession).commands = [] ∧
    (mountEffect false (some q) cached settings initialSession).searchActionCalls = [q] := by
  rcases hmiss with rfl | ⟨c, rfl, hc⟩
  · simp [mountEffect, handleSearch, hq, hb]
  · have hcond : ¬(c.query = q ∧ c.results.length > 0) := by
      rcases hc with h | h
      · exact fun hh => h hh.1
      · intro hh
        rw [h] at hh
        exact absurd hh.2 (by simp)
    simp [mountEffect, handleSearch, hq, hb, hcond]

theorem mountEffect_whitespace_query_amended_witness :
    (mountEffect false (some " ") none ⟨"default", []⟩ initialSession).state =
      { initialSession with query := " " } ∧
    (mountEffect false (some " ") none ⟨"default", []⟩ initialSession).commands = [] ∧
    (mountEffect false (some " ") none ⟨"default", []⟩ initialSession).searchActionCalls =
      [" "] :=
  mountEffect_whitespace_query_amended " " none ⟨"default", []⟩ (by decide) (by decide)
    (Or.inl rfl)

end KVvideo
